import Mathlib

/-
  Shallow embedding of src/bible-guess-game.js (the BibleGuessGame custom
  element): its state fields, the round operations (nextVerse, submitGuess,
  skipVerse, endGame), the one-second timer tick of startGame, and the
  loadVerses fetch path.  Rendering (lit templates, requestUpdate,
  updateComplete scheduling) is not modelled; the deferred
  `this.feedbackVisible = true` inside updateComplete.then of submitGuess is
  modelled as taking effect with the rest of the method, which is the state
  the next user action observes.
-/

namespace BibleGuess

/-- Runtime errors of the JavaScript semantics that the embedded code can
throw: a TypeError from reading a property of undefined, and a
ReferenceError from resolving an identifier that is not in scope. -/
inductive JsError where
  | typeError : JsError
  | referenceError : JsError
deriving DecidableEq

/-- One verse object as built by loadVerses (lines 45-51): text, book display
name, 1-based chapter and verse numbers, and the language code. -/
structure VerseRecord where
  text : String
  book : String
  chapterNumber : Nat
  verseNumber : Nat
  language : String
deriving DecidableEq

/-- The value of this.currentVerse.  The constructor sets it to the empty
object, indexing an empty verses array in nextVerse yields undefined, and
otherwise it is a verse record.  Reading .book distinguishes the three. -/
inductive CurrentVerse where
  | undef : CurrentVerse
  | emptyObj : CurrentVerse
  | verse (v : VerseRecord) : CurrentVerse
deriving DecidableEq

/-- The reactive fields of the BibleGuessGame element.  timeLeft is an Int
so that non-negativity is a real statement about the tick logic. -/
structure GameState where
  verses : List VerseRecord
  currentVerse : CurrentVerse
  score : Nat
  timeLeft : Int
  feedbackVisible : Bool
  feedbackStatus : String
  feedbackMessage : String
  gameEnded : Bool
deriving DecidableEq

/-- The state installed by the constructor (lines 16-27). -/
def initState : GameState :=
  { verses := []
    currentVerse := CurrentVerse.emptyObj
    score := 0
    timeLeft := 180
    feedbackVisible := false
    feedbackStatus := ""
    feedbackMessage := ""
    gameEnded := false }

/-- JavaScript whitespace as far as String.prototype.trim is concerned,
restricted to the ASCII range used by the game. -/
def isJsWhitespace (c : Char) : Bool :=
  c = ' ' || c = '\t' || c = '\n' || c = '\r'

/-- String.prototype.trim: drop leading and trailing whitespace. -/
def jsTrim (s : String) : String :=
  String.mk (((s.data.dropWhile isJsWhitespace).reverse.dropWhile isJsWhitespace).reverse)

/-- String.prototype.toLowerCase on the ASCII letters occurring in book
names: lower-case every character. -/
def jsToLower (s : String) : String :=
  String.mk (s.data.map Char.toLower)

/-- nextVerse (lines 92-103): reset the feedback fields and pick
this.verses[i], where i stands for Math.floor(Math.random() * length);
indexing out of range (in particular on an empty array) yields undefined.
The updateComplete.then callback only clears the input element. -/
def nextVerse (i : Nat) (s : GameState) : GameState :=
  { s with
    feedbackVisible := false
    feedbackStatus := ""
    feedbackMessage := ""
    currentVerse :=
      match s.verses.get? i with
      | some v => CurrentVerse.verse v
      | none => CurrentVerse.undef }

/-- submitGuess (lines 105-126) with raw the value of the input element.
Guard on feedback already visible or game ended; guard on blank trimmed
input; then read this.currentVerse.book (a TypeError when currentVerse is
undefined, and a TypeError from .toLowerCase() on the undefined book of the
constructor's empty object) and compare case-insensitively. -/
def submitGuess (raw : String) (s : GameState) : Except JsError GameState :=
  if s.feedbackVisible || s.gameEnded then Except.ok s
  else if jsTrim raw = "" then Except.ok s
  else
    match s.currentVerse with
    | CurrentVerse.undef => Except.error JsError.typeError
    | CurrentVerse.emptyObj => Except.error JsError.typeError
    | CurrentVerse.verse v =>
      if jsToLower (jsTrim raw) = jsToLower v.book then
        Except.ok { s with
          score := s.score + 1
          feedbackStatus := "correct"
          feedbackMessage := "✅ Correct!"
          feedbackVisible := true }
      else
        Except.ok { s with
          feedbackStatus := "wrong"
          feedbackMessage := "❌ Wrong! Correct book: " ++ v.book
          feedbackVisible := true }

/-- skipVerse (lines 129-135).  Reading .book of undefined currentVerse
throws; on the constructor's empty object the book interpolates as the
string undefined. -/
def skipVerse (s : GameState) : Except JsError GameState :=
  if s.feedbackVisible || s.gameEnded then Except.ok s
  else
    match s.currentVerse with
    | CurrentVerse.undef => Except.error JsError.typeError
    | CurrentVerse.emptyObj =>
      Except.ok { s with
        feedbackStatus := "skipped"
        feedbackMessage := "⏭ Skipped! Correct book: undefined"
        feedbackVisible := true }
    | CurrentVerse.verse v =>
      Except.ok { s with
        feedbackStatus := "skipped"
        feedbackMessage := "⏭ Skipped! Correct book: " ++ v.book
        feedbackVisible := true }

/-- endGame (lines 137-143). -/
def endGame (s : GameState) : GameState :=
  { s with
    gameEnded := true
    feedbackStatus := "ended"
    feedbackMessage := "⏰ Time\x27s up! Final score: " ++ toString s.score
    feedbackVisible := true }

/-- One firing of the setInterval callback of startGame (lines 81-89):
decrement while timeLeft is positive, otherwise stop the interval and call
endGame. -/
def tick (s : GameState) : GameState :=
  if s.timeLeft > 0 then { s with timeLeft := s.timeLeft - 1 } else endGame s

/-- n consecutive timer ticks. -/
def tickN : Nat → GameState → GameState
  | 0, s => s
  | n + 1, s => tickN n (tick s)

/-- The operations named by the specification: a timer tick, nextVerse with
its random index, submitGuess with the raw input, skipVerse, and endGame. -/
inductive Op where
  | tick : Op
  | next (i : Nat) : Op
  | submit (g : String) : Op
  | skip : Op
  | endg : Op

/-- Apply one operation; none when the JavaScript method throws. -/
def stepOp : Op → GameState → Option GameState
  | Op.tick, s => some (tick s)
  | Op.next i, s => some (nextVerse i s)
  | Op.submit g, s =>
    match submitGuess g s with
    | Except.ok s2 => some s2
    | Except.error _ => none
  | Op.skip, s =>
    match skipVerse s with
    | Except.ok s2 => some s2
    | Except.error _ => none
  | Op.endg, s => some (endGame s)

/-- States reachable from the constructor state when every method,
including endGame and nextVerse, may be called at any time. -/
inductive Reachable : GameState → Prop where
  | init : Reachable initState
  | step (op : Op) (s s2 : GameState) :
      Reachable s → stepOp op s = some s2 → Reachable s2

/-- One transition as the running element actually performs them: ticks fire
from the interval (endGame happens only through a tick at zero), and
nextVerse runs only from startGame or the Next button, which the template
omits once feedbackStatus is ended. -/
inductive StepUI : GameState → GameState → Prop where
  | tick (s : GameState) : StepUI s (tick s)
  | next (i : Nat) (s : GameState) :
      s.feedbackStatus ≠ "ended" → StepUI s (nextVerse i s)
  | submit (g : String) (s s2 : GameState) :
      submitGuess g s = Except.ok s2 → StepUI s s2
  | skip (s s2 : GameState) :
      skipVerse s = Except.ok s2 → StepUI s s2

/-- States the running element can actually be in. -/
inductive ReachableUI : GameState → Prop where
  | init : ReachableUI initState
  | step (s s2 : GameState) : ReachableUI s → StepUI s s2 → ReachableUI s2

/-- A user action after the game has ended: a submit click with some input,
or a skip click. -/
inductive UserOp where
  | submit (g : String) : UserOp
  | skip : UserOp

/-- Apply one user action; both methods return the state unchanged once the
game has ended, so the error branch (unreachable there) keeps the state. -/
def applyUserOp (op : UserOp) (s : GameState) : GameState :=
  match op with
  | UserOp.submit g =>
    match submitGuess g s with
    | Except.ok s2 => s2
    | Except.error _ => s
  | UserOp.skip =>
    match skipVerse s with
    | Except.ok s2 => s2
    | Except.error _ => s

/-- Apply a whole sequence of user actions in order. -/
def runUserOps : List UserOp → GameState → GameState
  | [], s => s
  | op :: rest, s => runUserOps rest (applyUserOp op s)

/-- One entry of api.books from bible-api.js (not in the sources; the claims
only need that each entry carries an id used in the URL and a display name
for the hardcoded language en, exactly how loadVerses reads randomBB). -/
structure Book where
  id : String
  en : String
deriving DecidableEq

/-- The parsed JSON document for a book: data.chapters, one array of verse
strings per chapter. -/
structure BookData where
  chapters : List (List String)
deriving DecidableEq

/-- Bindings lexically visible inside the catch block of loadVerses: the
catch parameter err.  The consts lang and randomBB are declared inside the
try block, so JavaScript block scoping keeps them out of this environment. -/
def catchEnv (err : String) : List (String × String) :=
  [("err", err)]

/-- Resolve an identifier in an environment; an absent name is a
ReferenceError. -/
def lookupId (x : String) (env : List (String × String)) : Except JsError String :=
  match env.find? (fun p => p.fst == x) with
  | some p => Except.ok p.snd
  | none => Except.error JsError.referenceError

/-- The catch block of loadVerses (lines 53-58): build the one-element
placeholder pool whose book field is randomBB.id.  Evaluating the
identifier randomBB resolves it in the catch scope; the placeholder has no
chapter or verse fields, modelled as zeros. -/
def loadVersesCatch (err : String) : Except JsError (List VerseRecord) := do
  let bb ← lookupId "randomBB" (catchEnv err)
  Except.ok [{ text := "Error, could not find this book id on the API:"
               book := bb
               chapterNumber := 0
               verseNumber := 0
               language := "" }]

/-- loadVerses (lines 33-59).  books stands for api.books, bi for the random
book index, fetchResult for the awaited fetch plus response.json() (an error
value when either rejects), and ci for the random chapter index.  An
out-of-range book or chapter index reads undefined and throws inside the
try, landing in the same catch block. -/
def loadVerses (books : List Book) (bi : Nat)
    (fetchResult : Except String BookData) (ci : Nat) :
    Except JsError (List VerseRecord) :=
  match books.get? bi with
  | none => loadVersesCatch "TypeError: randomBB is undefined"
  | some bb =>
    match fetchResult with
    | Except.error e => loadVersesCatch e
    | Except.ok data =>
      match data.chapters.get? ci with
      | none => loadVersesCatch "TypeError: chapter is undefined"
      | some chapter =>
        Except.ok (chapter.enum.map (fun p =>
          { text := p.2
            book := bb.en
            chapterNumber := ci + 1
            verseNumber := p.1 + 1
            language := "en" }))

/-- Helper: the first guard of submitGuess fires whenever feedback is
visible or the game has ended, returning the state unchanged. -/
lemma submitGuess_guard (g : String) (s : GameState)
    (h : s.feedbackVisible = true ∨ s.gameEnded = true) :
    submitGuess g s = Except.ok s := by
  have hb : (s.feedbackVisible || s.gameEnded) = true := by
    rcases h with h | h <;> simp [h]
  unfold submitGuess
  rw [if_pos hb]

/-- Helper: the guard of skipVerse fires whenever feedback is visible or the
game has ended, returning the state unchanged. -/
lemma skipVerse_guard (s : GameState)
    (h : s.feedbackVisible = true ∨ s.gameEnded = true) :
    skipVerse s = Except.ok s := by
  have hb : (s.feedbackVisible || s.gameEnded) = true := by
    rcases h with h | h <;> simp [h]
  unfold skipVerse
  rw [if_pos hb]

/-- Helper: every successful run of submitGuess is either one of the two
no-op guards or one of the two feedback updates on a real current verse. -/
lemma submitGuess_ok (g : String) (s s2 : GameState)
    (h : submitGuess g s = Except.ok s2) :
    s2 = s ∨
    (s.feedbackVisible = false ∧ s.gameEnded = false ∧ jsTrim g ≠ "" ∧
      ∃ v, s.currentVerse = CurrentVerse.verse v ∧
        (s2 = { s with
            score := s.score + 1
            feedbackStatus := "correct"
            feedbackMessage := "✅ Correct!"
            feedbackVisible := true } ∨
         s2 = { s with
            feedbackStatus := "wrong"
            feedbackMessage := "❌ Wrong! Correct book: " ++ v.book
            feedbackVisible := true })) := by
  unfold submitGuess at h
  split at h
  · exact Or.inl (by cases h; rfl)
  · rename_i hguard
    have hv : s.feedbackVisible = false ∧ s.gameEnded = false := by
      constructor <;> [cases hfb : s.feedbackVisible; cases hge : s.gameEnded] <;>
        simp_all
    split at h
    · exact Or.inl (by cases h; rfl)
    · rename_i hne
      split at h
      · cases h
      · cases h
      · rename_i v hcv
        split at h
        · exact Or.inr ⟨hv.1, hv.2, hne, v, hcv, Or.inl (by cases h; rfl)⟩
        · exact Or.inr ⟨hv.1, hv.2, hne, v, hcv, Or.inr (by cases h; rfl)⟩

/-- Helper: every successful run of skipVerse is either the no-op guard or a
feedback update to skipped. -/
lemma skipVerse_ok (s s2 : GameState)
    (h : skipVerse s = Except.ok s2) :
    s2 = s ∨
    (s.feedbackVisible = false ∧ s.gameEnded = false ∧
      (s2 = { s with
          feedbackStatus := "skipped"
          feedbackMessage := "⏭ Skipped! Correct book: undefined"
          feedbackVisible := true } ∨
       ∃ v, s.currentVerse = CurrentVerse.verse v ∧
         s2 = { s with
            feedbackStatus := "skipped"
            feedbackMessage := "⏭ Skipped! Correct book: " ++ v.book
            feedbackVisible := true })) := by
  unfold skipVerse at h
  split at h
  · exact Or.inl (by cases h; rfl)
  · rename_i hguard
    have hv : s.feedbackVisible = false ∧ s.gameEnded = false := by
      constructor <;> [cases hfb : s.feedbackVisible; cases hge : s.gameEnded] <;>
        simp_all
    split at h
    · cases h
    · exact Or.inr ⟨hv.1, hv.2, Or.inl (by cases h; rfl)⟩
    · rename_i v hcv
      exact Or.inr ⟨hv.1, hv.2, Or.inr ⟨v, hcv, by cases h; rfl⟩⟩

/-- Helper: ticks taken one more at a time from the right. -/
lemma tickN_succ_right (n : Nat) (s : GameState) :
    tickN (n + 1) s = tick (tickN n s) := by
  induction n generalizing s with
  | zero => rfl
  | succ n ih =>
    show tickN (n + 1) (tick s) = tick (tickN (n + 1) s)
    rw [ih (tick s)]
    rfl

/-- Helper: while at least n seconds remain, n ticks only decrement the
clock by n and change nothing else the claims look at. -/
lemma tickN_drain (n : Nat) (s : GameState) (h : (n : Int) ≤ s.timeLeft) :
    (tickN n s).timeLeft = s.timeLeft - n ∧
    (tickN n s).feedbackStatus = s.feedbackStatus ∧
    (tickN n s).gameEnded = s.gameEnded ∧
    (tickN n s).score = s.score := by
  induction n generalizing s with
  | zero => exact ⟨by simp [tickN], rfl, rfl, rfl⟩
  | succ n ih =>
    have hpos : 0 < s.timeLeft := by
      push_cast at h
      omega
    have htick : tick s = { s with timeLeft := s.timeLeft - 1 } := by
      unfold tick
      rw [if_pos hpos]
    have hle : (n : Int) ≤ ({ s with timeLeft := s.timeLeft - 1 } : GameState).timeLeft := by
      show (n : Int) ≤ s.timeLeft - 1
      push_cast at h
      omega
    have ih2 := ih { s with timeLeft := s.timeLeft - 1 } hle
    refine ⟨?_, ?_, ?_, ?_⟩
    · show (tickN n (tick s)).timeLeft = s.timeLeft - (n + 1 : Nat)
      rw [htick, ih2.1]
      push_cast
      ring
    · show (tickN n (tick s)).feedbackStatus = s.feedbackStatus
      rw [htick]
      exact ih2.2.1
    · show (tickN n (tick s)).gameEnded = s.gameEnded
      rw [htick]
      exact ih2.2.2.1
    · show (tickN n (tick s)).score = s.score
      rw [htick]
      exact ih2.2.2.2

/-- Helper: once the game has ended, a single user action keeps the state. -/
lemma applyUserOp_ended (op : UserOp) (s : GameState)
    (h : s.gameEnded = true) : applyUserOp op s = s := by
  cases op with
  | submit g => simp [applyUserOp, submitGuess_guard g s (Or.inr h)]
  | skip => simp [applyUserOp, skipVerse_guard s (Or.inr h)]

/-- Helper: once the game has ended, any sequence of user actions keeps the
state. -/
lemma runUserOps_ended (ops : List UserOp) (s : GameState)
    (h : s.gameEnded = true) : runUserOps ops s = s := by
  induction ops with
  | nil => rfl
  | cons op rest ih =>
    show runUserOps rest (applyUserOp op s) = s
    rw [applyUserOp_ended op s h]
    exact ih

/-- A concrete verse used to instantiate the universal statements. -/
def sampleVerse : VerseRecord :=
  { text := "In the beginning..."
    book := "Genesis"
    chapterNumber := 1
    verseNumber := 1
    language := "en" }

/-- A state whose pool holds one verse. -/
def poolState : GameState :=
  { initState with verses := [sampleVerse] }

/-- A mid-round state: pool loaded and a current verse drawn. -/
def playState : GameState :=
  { initState with
    verses := [sampleVerse]
    currentVerse := CurrentVerse.verse sampleVerse }

/-- C1: the claim says every fetch or parse failure in loadVerses is caught,
logged and replaced by a one-element placeholder pool so that loading never
throws.  The catch block instead dereferences randomBB, a const scoped to
the try block, so resolving the identifier raises a ReferenceError and
loadVerses rejects on every fetch or parse failure. -/
theorem loadVerses_fetch_error_rejects (books : List Book) (bi ci : Nat)
    (e : String) :
    loadVerses books bi (Except.error e) ci =
      Except.error JsError.referenceError := by
  unfold loadVerses
  cases hb : books.get? bi <;> rfl

/-- C4: with the game running (no feedback shown, not ended) and a real
current verse, a trimmed non-empty guess equal to the book name up to
letter case yields status correct and score plus one, and a differing
guess yields status wrong with the score unchanged. -/
theorem submitGuess_case_insensitive (s : GameState) (v : VerseRecord)
    (raw : String)
    (hfb : s.feedbackVisible = false) (hge : s.gameEnded = false)
    (hcv : s.currentVerse = CurrentVerse.verse v)
    (hne : jsTrim raw ≠ "") :
    (jsToLower (jsTrim raw) = jsToLower v.book →
      submitGuess raw s = Except.ok { s with
        score := s.score + 1
        feedbackStatus := "correct"
        feedbackMessage := "✅ Correct!"
        feedbackVisible := true }) ∧
    (jsToLower (jsTrim raw) ≠ jsToLower v.book →
      submitGuess raw s = Except.ok { s with
        feedbackStatus := "wrong"
        feedbackMessage := "❌ Wrong! Correct book: " ++ v.book
        feedbackVisible := true }) := by
  constructor <;> intro hcase <;>
    simp [submitGuess, hfb, hge, hcv, hne, hcase]

/-- Witness for C4 at a concrete state: an all-caps guess against the book
Genesis is counted correct and scores one point. -/
theorem submitGuess_case_insensitive_witness :
    submitGuess "GENESIS" playState = Except.ok { playState with
      score := playState.score + 1
      feedbackStatus := "correct"
      feedbackMessage := "✅ Correct!"
      feedbackVisible := true } :=
  (submitGuess_case_insensitive playState sampleVerse "GENESIS"
    rfl rfl rfl (by decide)).1 (by decide)

/-- C5: for a non-empty pool and any in-range random index, nextVerse makes
the current verse a member of the pool and resets feedbackVisible. -/
theorem nextVerse_selects_member (s : GameState) (i : Nat)
    (h : i < s.verses.length) :
    (∃ v, v ∈ s.verses ∧ (nextVerse i s).currentVerse = CurrentVerse.verse v) ∧
    (nextVerse i s).feedbackVisible = false := by
  refine ⟨⟨s.verses.get ⟨i, h⟩, List.get_mem s.verses i h, ?_⟩, rfl⟩
  simp [nextVerse, List.getElem?_eq_getElem h, List.get_eq_getElem]

/-- Witness for C5 on a one-verse pool with index zero. -/
theorem nextVerse_selects_member_witness :
    (∃ v, v ∈ poolState.verses ∧
      (nextVerse 0 poolState).currentVerse = CurrentVerse.verse v) ∧
    (nextVerse 0 poolState).feedbackVisible = false :=
  nextVerse_selects_member poolState 0 (by decide)

/-- C6: in every state, a guess that trims to the empty string leaves the
state unchanged, so feedbackVisible stays false when it was false and the
score is untouched. -/
theorem submitGuess_blank_noop (s : GameState) (raw : String)
    (h : jsTrim raw = "") :
    submitGuess raw s = Except.ok s := by
  unfold submitGuess
  split
  · rfl
  · simp [h]

/-- Witness for C6: submitting three spaces in the initial state changes
nothing. -/
theorem submitGuess_blank_noop_witness :
    submitGuess "   " initState = Except.ok initState :=
  submitGuess_blank_noop initState "   " (by decide)

/-- C7: while feedback is visible or the game has ended, submitGuess with
any input and skipVerse both return the state unchanged, so repeated
clicks are idempotent. -/
theorem feedback_or_ended_noop (s : GameState)
    (h : s.feedbackVisible = true ∨ s.gameEnded = true) :
    (∀ g, submitGuess g s = Except.ok s) ∧ skipVerse s = Except.ok s :=
  ⟨fun g => submitGuess_guard g s h, skipVerse_guard s h⟩

/-- Witness for C7 at the ended state reached from the constructor state. -/
theorem feedback_or_ended_noop_witness :
    submitGuess "Genesis" (endGame initState) = Except.ok (endGame initState) ∧
    skipVerse (endGame initState) = Except.ok (endGame initState) :=
  ⟨(feedback_or_ended_noop (endGame initState) (Or.inr rfl)).1 "Genesis",
   (feedback_or_ended_noop (endGame initState) (Or.inr rfl)).2⟩

/-- C9: with an empty pool and the game still running, nextVerse stores
undefined as the current verse, and then skipVerse, or submitGuess with a
non-blank input, throws a TypeError when it reads the book field. -/
theorem emptyPool_typeError (s : GameState) (i : Nat) (raw : String)
    (hempty : s.verses = []) (hge : s.gameEnded = false)
    (hraw : jsTrim raw ≠ "") :
    (nextVerse i s).currentVerse = CurrentVerse.undef ∧
    skipVerse (nextVerse i s) = Except.error JsError.typeError ∧
    submitGuess raw (nextVerse i s) = Except.error JsError.typeError := by
  have hcv : (nextVerse i s).currentVerse = CurrentVerse.undef := by
    simp [nextVerse, hempty]
  refine ⟨hcv, ?_, ?_⟩
  · unfold skipVerse
    rw [if_neg (by simp [nextVerse, hge]), hcv]
  · unfold submitGuess
    rw [if_neg (by simp [nextVerse, hge]), if_neg hraw, hcv]

/-- Witness for C9 at the constructor state, whose pool is empty. -/
theorem emptyPool_typeError_witness :
    (nextVerse 0 initState).currentVerse = CurrentVerse.undef ∧
    skipVerse (nextVerse 0 initState) = Except.error JsError.typeError ∧
    submitGuess "Genesis" (nextVerse 0 initState) =
      Except.error JsError.typeError :=
  emptyPool_typeError initState 0 "Genesis" rfl rfl (by decide)

/-- Helper: the strengthened inductive invariant of the running element:
feedback shown only with a status, gameEnded tracks the ended status, the
clock is exhausted once ended, and the clock is never negative. -/
def InvAux (s : GameState) : Prop :=
  (s.feedbackVisible = true → s.feedbackStatus ≠ "") ∧
  (s.gameEnded = true ↔ s.feedbackStatus = "ended") ∧
  (s.gameEnded = true → s.timeLeft = 0) ∧
  0 ≤ s.timeLeft

/-- Helper: the invariant holds in the constructor state. -/
lemma invAux_init : InvAux initState := by
  refine ⟨?_, ?_, ?_, ?_⟩ <;> simp [initState]

/-- Helper: a state that shows a non-empty, non-ended status with the game
still running and a non-negative clock satisfies the invariant. -/
lemma invAux_mk (s2 : GameState) (h1 : s2.feedbackStatus ≠ "")
    (h2 : s2.feedbackStatus ≠ "ended") (h3 : s2.gameEnded = false)
    (h4 : 0 ≤ s2.timeLeft) : InvAux s2 := by
  refine ⟨fun _ => h1, ?_, ?_, h4⟩
  · rw [h3]
    simp [h2]
  · intro hg
    rw [h3] at hg
    cases hg

/-- Helper: every transition of the running element preserves the
invariant. -/
lemma invAux_step (s s2 : GameState) (h : StepUI s s2) (ih : InvAux s) :
    InvAux s2 := by
  obtain ⟨i1, i2, i3, i4⟩ := ih
  cases h with
  | tick s =>
    unfold tick
    split
    · rename_i hpos
      refine ⟨i1, i2, ?_, ?_⟩
      · intro hg
        have := i3 hg
        show s.timeLeft - 1 = 0
        omega
      · show 0 ≤ s.timeLeft - 1
        omega
    · rename_i hneg
      refine ⟨fun _ => by show ("ended" : String) ≠ ""; decide,
        by show true = true ↔ ("ended" : String) = "ended"; decide, ?_, i4⟩
      intro _
      show s.timeLeft = 0
      omega
  | next i s hne =>
    have hge : s.gameEnded = false := by
      cases hg : s.gameEnded
      · rfl
      · exact absurd (i2.mp hg) hne
    refine ⟨?_, ?_, ?_, i4⟩
    · intro hfb
      simp [nextVerse] at hfb
    · show s.gameEnded = true ↔ ("" : String) = "ended"
      simp [hge]
    · intro hg
      rw [show (nextVerse i s).gameEnded = s.gameEnded from rfl, hge] at hg
      cases hg
  | submit g s s2 hok =>
    rcases submitGuess_ok g s s2 hok with rfl | ⟨hfb, hge, hne, v, hcv, hc | hc⟩
    · exact ⟨i1, i2, i3, i4⟩
    · subst hc
      exact invAux_mk _ (by show ("correct" : String) ≠ ""; decide)
        (by show ("correct" : String) ≠ "ended"; decide) hge i4
    · subst hc
      exact invAux_mk _ (by show ("wrong" : String) ≠ ""; decide)
        (by show ("wrong" : String) ≠ "ended"; decide) hge i4
  | skip s s2 hok =>
    rcases skipVerse_ok s s2 hok with rfl | ⟨hfb, hge, hc | ⟨v, hcv, hc⟩⟩
    · exact ⟨i1, i2, i3, i4⟩
    · subst hc
      exact invAux_mk _ (by show ("skipped" : String) ≠ ""; decide)
        (by show ("skipped" : String) ≠ "ended"; decide) hge i4
    · subst hc
      exact invAux_mk _ (by show ("skipped" : String) ≠ ""; decide)
        (by show ("skipped" : String) ≠ "ended"; decide) hge i4

/-- C3 counterexample: the claim quantifies over states reachable by the
listed operations, endGame included; applying endGame to the constructor
state is such a state, it has gameEnded true, yet its timeLeftSeconds is
180, so the claimed equivalence gameEnded iff (status ended and time zero)
fails there. -/
theorem endGame_breaks_claimed_invariant :
    Reachable (endGame initState) ∧
    ¬ ((endGame initState).gameEnded = true ↔
        ((endGame initState).feedbackStatus = "ended" ∧
         (endGame initState).timeLeft = 0)) :=
  ⟨Reachable.step Op.endg initState (endGame initState) Reachable.init rfl,
   by decide⟩

/-- C3 amended: over the transitions the element actually performs (ticks,
submitGuess, skipVerse, and nextVerse only while the status is not ended,
with endGame reached only through a tick at zero), every reachable state
has feedbackVisible only with a non-none status, and gameEnded exactly when
the status is ended and the clock is zero. -/
theorem reachableUI_invariant (s : GameState) (h : ReachableUI s) :
    (s.feedbackVisible = true → s.feedbackStatus ≠ "") ∧
    (s.gameEnded = true ↔
      (s.feedbackStatus = "ended" ∧ s.timeLeft = 0)) := by
  have hi : InvAux s := by
    induction h with
    | init => exact invAux_init
    | step s1 s2 hr hstep ih => exact invAux_step s1 s2 hstep ih
  obtain ⟨i1, i2, i3, i4⟩ := hi
  exact ⟨i1, ⟨fun hg => ⟨i2.mp hg, i3 hg⟩, fun hp => i2.mpr hp.1⟩⟩

/-- Witness for the amended C3 at the constructor state. -/
theorem reachableUI_invariant_witness :
    (initState.feedbackVisible = true → initState.feedbackStatus ≠ "") ∧
    (initState.gameEnded = true ↔
      (initState.feedbackStatus = "ended" ∧ initState.timeLeft = 0)) :=
  reachableUI_invariant initState ReachableUI.init

/-- C2 counterexample: starting from the constructor state with
timeLeftSeconds 180, after exactly 180 ticks the clock has only just
reached zero; the status is still none and gameEnded is still false, so the
claim that 180 ticks end the game fails. -/
theorem tick180_not_ended :
    ¬ ((tickN 180 initState).feedbackStatus = "ended" ∧
       (tickN 180 initState).gameEnded = true) := by
  have hd := tickN_drain 180 initState (by decide)
  rintro ⟨h1, h2⟩
  rw [hd.2.1] at h1
  exact absurd h1 (by decide)

/-- C2 amended: from timeLeftSeconds 180 it takes 181 ticks (180 to drain
the clock plus the tick that fires endGame) for the status to become ended
and gameEnded to become true, and from then on any sequence of submitGuess
or skipVerse calls leaves the score unchanged. -/
theorem tick181_ends (s : GameState) (h : s.timeLeft = 180) :
    (tickN 181 s).feedbackStatus = "ended" ∧
    (tickN 181 s).gameEnded = true ∧
    ∀ ops : List UserOp,
      (runUserOps ops (tickN 181 s)).score = (tickN 181 s).score := by
  have hd := tickN_drain 180 s (by rw [h]; decide)
  have ht0 : (tickN 180 s).timeLeft = 0 := by
    rw [hd.1, h]
    norm_num
  have h181 : tickN 181 s = endGame (tickN 180 s) := by
    rw [show tickN 181 s = tick (tickN 180 s) from tickN_succ_right 180 s]
    unfold tick
    rw [ht0]
    norm_num
  refine ⟨by rw [h181]; rfl, by rw [h181]; rfl, ?_⟩
  intro ops
  rw [runUserOps_ended ops (tickN 181 s) (by rw [h181]; rfl)]

/-- Witness for the amended C2 at the constructor state with two further
clicks after the end. -/
theorem tick181_ends_witness :
    (tickN 181 initState).feedbackStatus = "ended" ∧
    (tickN 181 initState).gameEnded = true ∧
    (runUserOps [UserOp.skip, UserOp.submit "Genesis"]
      (tickN 181 initState)).score = (tickN 181 initState).score :=
  ⟨(tick181_ends initState rfl).1, (tick181_ends initState rfl).2.1,
   (tick181_ends initState rfl).2.2 [UserOp.skip, UserOp.submit "Genesis"]⟩

/-- C8: across every operation, the score never decreases, and it changes
only on a submitGuess whose outcome status is correct, and then by exactly
one. -/
theorem score_step_monotone (op : Op) (s s2 : GameState)
    (h : stepOp op s = some s2) :
    s.score ≤ s2.score ∧
    (s2.score = s.score ∨
      ∃ g, op = Op.submit g ∧ s2.feedbackStatus = "correct" ∧
        s2.score = s.score + 1) := by
  cases op with
  | tick =>
    simp [stepOp] at h
    subst h
    unfold tick
    split
    · exact ⟨le_refl _, Or.inl rfl⟩
    · exact ⟨le_refl _, Or.inl rfl⟩
  | next i =>
    simp [stepOp] at h
    subst h
    exact ⟨le_refl _, Or.inl rfl⟩
  | submit g =>
    simp only [stepOp] at h
    cases hm : submitGuess g s with
    | ok s3 =>
      rw [hm] at h
      simp at h
      subst h
      rcases submitGuess_ok g s s3 hm with rfl | ⟨_, _, _, v, _, rfl | rfl⟩
      · exact ⟨le_refl _, Or.inl rfl⟩
      · exact ⟨Nat.le_succ _, Or.inr ⟨g, rfl, rfl, rfl⟩⟩
      · exact ⟨le_refl _, Or.inl rfl⟩
    | error e =>
      rw [hm] at h
      cases h
  | skip =>
    simp only [stepOp] at h
    cases hm : skipVerse s with
    | ok s3 =>
      rw [hm] at h
      simp at h
      subst h
      rcases skipVerse_ok s s3 hm with rfl | ⟨_, _, rfl | ⟨v, _, rfl⟩⟩
      · exact ⟨le_refl _, Or.inl rfl⟩
      · exact ⟨le_refl _, Or.inl rfl⟩
      · exact ⟨le_refl _, Or.inl rfl⟩
    | error e =>
      rw [hm] at h
      cases h
  | endg =>
    simp [stepOp] at h
    subst h
    exact ⟨le_refl _, Or.inl rfl⟩

/-- Witness for C8: a tick from the constructor state does not decrease the
score. -/
theorem score_step_monotone_witness :
    initState.score ≤ (tick initState).score :=
  (score_step_monotone Op.tick initState (tick initState) rfl).1

/-- C10: in every state reachable by the game operations from the
constructor state, timeLeftSeconds is non-negative, because a tick only
decrements a strictly positive clock and every other operation leaves the
clock alone. -/
theorem timeLeft_nonneg (s : GameState) (h : Reachable s) :
    0 ≤ s.timeLeft := by
  induction h with
  | init => decide
  | step op s1 s2 hr hstep ih =>
    cases op with
    | tick =>
      simp [stepOp] at hstep
      subst hstep
      unfold tick
      split
      · rename_i hpos
        show 0 ≤ s1.timeLeft - 1
        omega
      · exact ih
    | next i =>
      simp [stepOp] at hstep
      subst hstep
      exact ih
    | submit g =>
      simp only [stepOp] at hstep
      cases hm : submitGuess g s1 with
      | ok s3 =>
        rw [hm] at hstep
        simp at hstep
        subst hstep
        rcases submitGuess_ok g s1 s3 hm with rfl | ⟨_, _, _, v, _, rfl | rfl⟩ <;>
          exact ih
      | error e =>
        rw [hm] at hstep
        cases hstep
    | skip =>
      simp only [stepOp] at hstep
      cases hm : skipVerse s1 with
      | ok s3 =>
        rw [hm] at hstep
        simp at hstep
        subst hstep
        rcases skipVerse_ok s1 s3 hm with rfl | ⟨_, _, rfl | ⟨v, _, rfl⟩⟩ <;>
          exact ih
      | error e =>
        rw [hm] at hstep
        cases hstep
    | endg =>
      simp [stepOp] at hstep
      subst hstep
      exact ih

/-- Witness for C10 at the constructor state. -/
theorem timeLeft_nonneg_witness : 0 ≤ initState.timeLeft :=
  timeLeft_nonneg initState Reachable.init

end BibleGuess
